import Mathlib

/-!
# Verification of the semantic community-discovery subsystem

A shallow embedding, over `ℚ`, of the scoring, classification, transformation,
reranking, resolution and orchestration logic of the community-search tool
(`src/chroma/scoring.ts` and `src/tools/builtin/search_discourse_communities.ts`),
together with theorems settling the behavioural claims about it.

Modelling conventions:
* JavaScript numbers are modelled as rationals (`ℚ`); every constant in the code
  is decimal, and none of the claims hinge on binary floating-point artefacts.
* `x.toFixed(n)` on the non-negative values scored here is rounding half-up at
  `n` decimal places (`round3` / `round4`).
* The four-valued union type of `engagement_tier` in the stored metadata
  (`"high" | "medium" | "low" | "unknown"`) is modelled as an enumeration.
* Absent (`undefined`) or `null` fields are modelled with `Option`; JavaScript
  truthiness tests on strings and numbers are `strOr` / `numOr` / `jsTruthy`.
* `Array.prototype.sort` is the ECMAScript stable sort; it is modelled by the
  stable `List.insertionSort`.  For a consistent comparator every stable sort
  produces the same output, so the choice of algorithm is immaterial there.
* String prefix tests are carried out on the underlying character lists.
-/

/-- JavaScript `Number(x.toFixed(3))` for the non-negative values produced by the
scorer: round half-up at 3 decimal places. -/
def round3 (q : ℚ) : ℚ := (⌊q * 1000 + 1 / 2⌋ : ℚ) / 1000

/-- JavaScript `Number(x.toFixed(4))`: round half-up at 4 decimal places. -/
def round4 (q : ℚ) : ℚ := (⌊q * 10000 + 1 / 2⌋ : ℚ) / 10000

/-- JavaScript `Math.abs`. -/
def mathAbs (q : ℚ) : ℚ := if q < 0 then -q else q

/-- The engagement-tier union type of the stored metadata
(`"high" | "medium" | "low" | "unknown"` in `chroma/types.ts`). -/
inductive EngagementTier where
  | high
  | medium
  | low
  | unknown
deriving DecidableEq

/-- The match-tier union type (`"exact" | "semantic" | "adjacent" | "peripheral"`). -/
inductive MatchTier where
  | exact
  | semantic
  | adjacent
  | peripheral
deriving DecidableEq

/-- `calculateConfidenceFromDistance` from `src/chroma/scoring.ts` (lines 19-31):
piecewise-linear map from ChromaDB distance to a confidence score. -/
def calculateConfidenceFromDistance (distance : ℚ) : ℚ :=
  if distance < 0.8 then min 1.0 (0.9 + (0.8 - distance) * 0.125)
  else if distance < 1.0 then 0.7 + (1.0 - distance) * 1.0
  else if distance < 1.2 then 0.5 + (1.2 - distance) * 1.0
  else if distance < 1.4 then 0.3 + (1.4 - distance) * 1.0
  else max 0.1 (0.3 - (distance - 1.4) * 0.33)

/-- `classifyMatchTier` from `src/chroma/scoring.ts` (lines 42-47). -/
def classifyMatchTier (distance : ℚ) : MatchTier :=
  if distance < 0.2 then .exact
  else if distance < 0.35 then .semantic
  else if distance < 0.65 then .adjacent
  else .peripheral

/-- The `Community` result object (`chroma/types.ts`), fields in source order. -/
structure Community where
  id : String
  title : String
  url : String
  description : String
  users_count : ℚ
  active_users_30_days : ℚ
  engagement_tier : EngagementTier
  categories : String
  tags : String
  confidence : ℚ
  distance : ℚ
  match_tier : MatchTier

/-- The `ConfidenceStats` record (`chroma/types.ts`). -/
structure ConfidenceStats where
  mean : ℚ
  median : ℚ
  min : ℚ
  max : ℚ
deriving DecidableEq

/-- `calculateConfidenceStats` from `src/chroma/scoring.ts` (lines 52-73).
The JavaScript `sort((a, b) => a - b)` is the stable ascending sort on numbers,
modelled by `List.insertionSort (· ≤ ·)`; `reduce((acc, val) => acc + val, 0)`
is a left fold. -/
def calculateConfidenceStats (communities : List Community) : ConfidenceStats :=
  if communities.length = 0 then ⟨0, 0, 0, 0⟩
  else
    let confidences := (communities.map fun c => c.confidence).insertionSort (· ≤ ·)
    let sum := confidences.foldl (· + ·) 0
    let mean := sum / (confidences.length : ℚ)
    let mid := confidences.length / 2
    let median :=
      if confidences.length % 2 = 0 then
        (confidences.getD (mid - 1) 0 + confidences.getD mid 0) / 2
      else confidences.getD mid 0
    ⟨round3 mean, round3 median, round3 (confidences.getD 0 0),
      round3 (confidences.getD (confidences.length - 1) 0)⟩

/-- Helper facts about the scorer, used to settle C3. -/
theorem calculateConfidenceFromDistance_le_one (d : ℚ) :
    calculateConfidenceFromDistance d ≤ 1 := by
  simp only [calculateConfidenceFromDistance, min_def, max_def]
  split_ifs <;> linarith

theorem one_tenth_le_calculateConfidenceFromDistance (d : ℚ) :
    0.1 ≤ calculateConfidenceFromDistance d := by
  simp only [calculateConfidenceFromDistance, min_def, max_def]
  split_ifs <;> linarith

set_option maxHeartbeats 1000000 in
theorem calculateConfidenceFromDistance_antitone {d1 d2 : ℚ} (h : d1 ≤ d2) :
    calculateConfidenceFromDistance d2 ≤ calculateConfidenceFromDistance d1 := by
  simp only [calculateConfidenceFromDistance, min_def, max_def]
  split_ifs <;> linarith

/-- **C3.** The distance-to-confidence scorer is monotonic non-increasing
(`d1 < d2` implies `confidence d1 ≥ confidence d2`), `confidence 0 = 1` exactly,
`confidence d ≥ 0.1`, and `confidence d ≤ 1` for all `d ≥ 0`. -/
theorem confidence_monotone_and_bounded (d1 d2 d : ℚ) (h0 : 0 ≤ d1) (h12 : d1 < d2)
    (hd : 0 ≤ d) :
    calculateConfidenceFromDistance d2 ≤ calculateConfidenceFromDistance d1
    ∧ calculateConfidenceFromDistance 0 = 1
    ∧ 0.1 ≤ calculateConfidenceFromDistance d
    ∧ calculateConfidenceFromDistance d ≤ 1 := by
  refine ⟨calculateConfidenceFromDistance_antitone h12.le, ?_,
    one_tenth_le_calculateConfidenceFromDistance d, calculateConfidenceFromDistance_le_one d⟩
  norm_num [calculateConfidenceFromDistance]

/-- Witness for C3 at `d1 = 0`, `d2 = 1`, `d = 2`. -/
theorem confidence_monotone_and_bounded_witness :
    calculateConfidenceFromDistance 1 ≤ calculateConfidenceFromDistance 0
    ∧ calculateConfidenceFromDistance 0 = 1
    ∧ 0.1 ≤ calculateConfidenceFromDistance 2
    ∧ calculateConfidenceFromDistance 2 ≤ 1 :=
  confidence_monotone_and_bounded 0 1 2 le_rfl (by norm_num) (by norm_num)

/-- **C8.** The tier classifier is total and deterministic with the claimed
breakpoints, and takes the claimed values at the spec's sample distances. -/
theorem classifyMatchTier_spec (d : ℚ) :
    (d < 0.2 → classifyMatchTier d = .exact)
    ∧ (0.2 ≤ d → d < 0.35 → classifyMatchTier d = .semantic)
    ∧ (0.35 ≤ d → d < 0.65 → classifyMatchTier d = .adjacent)
    ∧ (0.65 ≤ d → classifyMatchTier d = .peripheral)
    ∧ classifyMatchTier 0.19 = .exact
    ∧ classifyMatchTier 0.2 = .semantic
    ∧ classifyMatchTier 0.34 = .semantic
    ∧ classifyMatchTier 0.35 = .adjacent
    ∧ classifyMatchTier 0.64 = .adjacent
    ∧ classifyMatchTier 0.65 = .peripheral
    ∧ classifyMatchTier 2.0 = .peripheral := by
  refine ⟨?_, ?_, ?_, ?_, ?_, ?_, ?_, ?_, ?_, ?_, ?_⟩ <;>
    (intros
     simp only [classifyMatchTier]
     split_ifs <;> first | rfl | linarith)

/-- Witness for C8 at `d = 0.5` and `d = 0.19`. -/
theorem classifyMatchTier_spec_witness :
    classifyMatchTier 0.5 = .adjacent ∧ classifyMatchTier 0.19 = .exact :=
  ⟨(classifyMatchTier_spec 0.5).2.2.1 (by norm_num) (by norm_num),
    (classifyMatchTier_spec 0.19).1 (by norm_num)⟩

/-- The stored metadata record (`DiscourseMetadata` in `chroma/types.ts`),
restricted to the fields this subsystem reads; `Option` models fields that may
be `null`/absent in a raw hit. -/
structure DiscourseMetadata where
  id : Option String
  title : Option String
  url : Option String
  excerpt : Option String
  description : Option String
  tags : Option String
  categories : Option String
  users_count : Option ℚ
  active_users_30_days : Option ℚ
  engagement_tier : Option EngagementTier

/-- JavaScript `v || dflt` for a possibly-absent string: absent and the empty
string are falsy. -/
def strOr (v : Option String) (dflt : String) : String :=
  match v with
  | some s => if s = "" then dflt else s
  | none => dflt

/-- JavaScript `v || dflt` for a possibly-absent number: absent and `0` are falsy. -/
def numOr (v : Option ℚ) (dflt : ℚ) : ℚ :=
  match v with
  | some n => if n = 0 then dflt else n
  | none => dflt

/-- The body of the loop of `transformResults`
(`search_discourse_communities.ts` lines 404-417): one `Community` built from a
kept hit. -/
def transformHit (metadata : DiscourseMetadata) (docId : String) (distance : ℚ) : Community :=
  ⟨strOr metadata.id docId,
    strOr metadata.title "Unknown",
    strOr metadata.url "",
    strOr metadata.description (strOr metadata.excerpt ""),
    numOr metadata.users_count 0,
    numOr metadata.active_users_30_days 0,
    metadata.engagement_tier.getD .unknown,
    strOr metadata.categories "",
    strOr metadata.tags "",
    round3 (calculateConfidenceFromDistance distance),
    round4 distance,
    classifyMatchTier distance⟩

/-- `transformResults` (`search_discourse_communities.ts` lines 391-421): a loop
over the indices of `ids` reading the three parallel arrays, skipping entries
whose metadata or distance is `null`.  The `getD` defaults model out-of-range
reads and are never taken when the arrays are parallel. -/
def transformResults (ids : List String) (metadatas : List (Option DiscourseMetadata))
    (distances : List (Option ℚ)) : List Community :=
  (List.range ids.length).filterMap fun i =>
    match metadatas.getD i none, distances.getD i none with
    | some metadata, some distance => some (transformHit metadata (ids.getD i "") distance)
    | _, _ => none

/-- The `tierOrder` lookup table of `rerank`
(`{ high: 3, medium: 2, low: 1, unknown: 0 }`, with `|| 0` fallback already
covered by the closed enumeration). -/
def tierOrder : EngagementTier → ℚ
  | .high => 3
  | .medium => 2
  | .low => 1
  | .unknown => 0

/-- The comparator of `rerank` (`search_discourse_communities.ts` lines 430-442):
confidence difference when its magnitude exceeds 0.1, otherwise engagement-tier
ordinal difference when nonzero, otherwise 30-day-active-user difference. -/
def rerankCompare (a b : Community) : ℚ :=
  if 0.1 < mathAbs (b.confidence - a.confidence) then b.confidence - a.confidence
  else if tierOrder b.engagement_tier - tierOrder a.engagement_tier ≠ 0 then
    tierOrder b.engagement_tier - tierOrder a.engagement_tier
  else b.active_users_30_days - a.active_users_30_days

/-- `rerank` (`search_discourse_communities.ts` lines 427-443):
`[...communities].sort(comparator)`.  The ECMAScript sort is stable and places
`a` before `b` when the comparator is negative; it is modelled by the stable
insertion sort on the relation `comparator a b ≤ 0`. -/
def rerank (communities : List Community) : List Community :=
  communities.insertionSort fun a b => rerankCompare a b ≤ 0

/-- Spec-side formulation of the three-key rerank ordering (spec §4.3): `a` must
come strictly before `b` when the confidence gap exceeds 0.1 and `a`'s
confidence is higher; otherwise when the tier ordinals differ and `a`'s is
higher; otherwise when `a`'s 30-day active-user count is higher. -/
def specKeyBefore (a b : Community) : Prop :=
  if 0.1 < mathAbs (a.confidence - b.confidence) then b.confidence < a.confidence
  else if tierOrder a.engagement_tier = tierOrder b.engagement_tier then
    b.active_users_30_days < a.active_users_30_days
  else tierOrder b.engagement_tier < tierOrder a.engagement_tier

/-- A list is ordered by the spec's three-key rule when no element is required
to come strictly before an element placed earlier. -/
def specKeySorted : List Community → Prop
  | [] => True
  | a :: rest => (∀ b ∈ rest, ¬ specKeyBefore b a) ∧ specKeySorted rest

/-- `mathAbs` is symmetric in subtraction. -/
theorem mathAbs_sub_comm (x y : ℚ) : mathAbs (x - y) = mathAbs (y - x) := by
  simp only [mathAbs]
  split_ifs <;> linarith

/-- First community of the claim's first rerank example: confidence 0.95,
engagement tier low. -/
def exConfA : Community := ⟨"exA", "A", "", "", 0, 0, .low, "", "", 0.95, 0.1, .exact⟩

/-- Second community of the claim's first rerank example: confidence 0.89,
engagement tier high. -/
def exConfB : Community := ⟨"exB", "B", "", "", 0, 0, .high, "", "", 0.89, 0.3, .semantic⟩

/-- First community of the claim's second rerank example: confidence 0.95,
engagement tier low. -/
def exConfC : Community := ⟨"exC", "C", "", "", 0, 0, .low, "", "", 0.95, 0.1, .exact⟩

/-- Second community of the claim's second rerank example: confidence 0.80,
engagement tier high. -/
def exConfD : Community := ⟨"exD", "D", "", "", 0, 0, .high, "", "", 0.80, 0.9, .peripheral⟩

/-- Cyclic triple: confidences 0.95/0.89/0.80 with tiers low/medium/high.  The
pairwise gaps 0.06 and 0.09 stay inside the 0.1 band (tier decides) while the
outer gap 0.15 exceeds it (confidence decides), so the three pairwise
constraints form a cycle. -/
def cycleX : Community := ⟨"cycX", "X", "", "", 0, 0, .low, "", "", 0.95, 0.1, .exact⟩

def cycleY : Community := ⟨"cycY", "Y", "", "", 0, 0, .medium, "", "", 0.89, 0.3, .semantic⟩

def cycleZ : Community := ⟨"cycZ", "Z", "", "", 0, 0, .high, "", "", 0.80, 0.9, .peripheral⟩

/-- **C1, counterexample.** On the cyclic triple no ordering of the three
communities — in particular not the one `rerank` returns — satisfies the
three-key sort rule, because the 0.1 confidence band is not transitive:
`rerank` cannot "produce the reordering given by the three-key sort" here, as
no such reordering exists. -/
theorem rerank_three_key_counterexample :
    ¬ specKeySorted [cycleX, cycleY, cycleZ]
    ∧ ¬ specKeySorted [cycleX, cycleZ, cycleY]
    ∧ ¬ specKeySorted [cycleY, cycleX, cycleZ]
    ∧ ¬ specKeySorted [cycleY, cycleZ, cycleX]
    ∧ ¬ specKeySorted [cycleZ, cycleX, cycleY]
    ∧ ¬ specKeySorted [cycleZ, cycleY, cycleX]
    ∧ rerank [cycleX, cycleY, cycleZ] = [cycleX, cycleZ, cycleY]
    ∧ ¬ specKeySorted (rerank [cycleX, cycleY, cycleZ]) := by
  have hout : rerank [cycleX, cycleY, cycleZ] = [cycleX, cycleZ, cycleY] := by
    simp only [rerank, List.insertionSort, List.orderedInsert, rerankCompare, mathAbs,
      tierOrder, cycleX, cycleY, cycleZ]
    norm_num
  refine ⟨?_, ?_, ?_, ?_, ?_, ?_, hout, ?_⟩ <;>
    first
    | (rw [hout]
       simp only [specKeySorted, specKeyBefore, mathAbs, tierOrder, List.forall_mem_cons,
         List.forall_mem_nil, cycleX, cycleY, cycleZ]
       norm_num)
    | (simp only [specKeySorted, specKeyBefore, mathAbs, tierOrder, List.forall_mem_cons,
         List.forall_mem_nil, cycleX, cycleY, cycleZ]
       norm_num)

/-- The comparator is negative exactly when the spec rule puts `a` strictly
before `b`. -/
theorem rerankCompare_neg_iff (a b : Community) :
    rerankCompare a b < 0 ↔ specKeyBefore a b := by
  unfold rerankCompare specKeyBefore
  rw [mathAbs_sub_comm b.confidence a.confidence]
  split_ifs <;>
    first
    | (constructor <;> intro h <;> linarith)
    | (exfalso; simp_all only [not_not, ne_eq, sub_ne_zero, sub_eq_zero, not_true, not_false_eq_true])

/-- The comparator is positive exactly when the spec rule puts `b` strictly
before `a`. -/
theorem rerankCompare_pos_iff (a b : Community) :
    0 < rerankCompare a b ↔ specKeyBefore b a := by
  unfold rerankCompare specKeyBefore
  split_ifs <;>
    first
    | (constructor <;> intro h <;> linarith)
    | (exfalso; simp_all only [not_not, ne_eq, sub_ne_zero, sub_eq_zero, not_true, not_false_eq_true])

/-- **C1, amended.** The comparator of `rerank` realises the spec's three-key
rule pairwise: it is negative exactly when the first argument must come
strictly before the second, and zero exactly when the two are indistinguishable
under all three keys; the claim's two concrete examples hold (0.95-low vs
0.89-high reranks the high-tier one first; 0.95 vs 0.80 keeps the higher
confidence first regardless of tier).  Because the 0.1-band rule is not
transitive, the full output is the three-key ordering only on inputs whose
pairwise constraints are acyclic (see the counterexample). -/
theorem rerank_pairwise_three_key (a b : Community) :
    (rerankCompare a b < 0 ↔ specKeyBefore a b)
    ∧ (rerankCompare a b = 0 ↔ ¬ specKeyBefore a b ∧ ¬ specKeyBefore b a)
    ∧ rerank [exConfA, exConfB] = [exConfB, exConfA]
    ∧ rerank [exConfC, exConfD] = [exConfC, exConfD] := by
  refine ⟨rerankCompare_neg_iff a b, ?_, ?_, ?_⟩
  · rw [← rerankCompare_neg_iff a b, ← rerankCompare_pos_iff a b]
    constructor
    · intro h
      exact ⟨by rw [h]; exact lt_irrefl 0, by rw [h]; exact lt_irrefl 0⟩
    · intro ⟨h1, h2⟩
      push_neg at h1 h2
      linarith
  · simp only [rerank, List.insertionSort, List.orderedInsert, rerankCompare, mathAbs,
      tierOrder, exConfA, exConfB]
    norm_num
  · simp only [rerank, List.insertionSort, List.orderedInsert, rerankCompare, mathAbs,
      tierOrder, exConfC, exConfD]
    norm_num

/-- Witness for C1 (amended) at the claim's first example pair. -/
theorem rerank_pairwise_three_key_witness :
    (rerankCompare exConfA exConfB < 0 ↔ specKeyBefore exConfA exConfB)
    ∧ rerank [exConfA, exConfB] = [exConfB, exConfA]
    ∧ rerank [exConfC, exConfD] = [exConfC, exConfD] :=
  ⟨(rerank_pairwise_three_key exConfA exConfB).1,
    (rerank_pairwise_three_key exConfA exConfB).2.2.1,
    (rerank_pairwise_three_key exConfA exConfB).2.2.2⟩

/-- Spec-side reformulation of the transform contract (spec §4.3): zip the three
parallel arrays and keep, in order, exactly the entries whose metadata and
distance are both present. -/
def transformSpecZip (ids : List String) (metadatas : List (Option DiscourseMetadata))
    (distances : List (Option ℚ)) : List Community :=
  (ids.zip (metadatas.zip distances)).filterMap fun e =>
    match e.2.1, e.2.2 with
    | some metadata, some distance => some (transformHit metadata e.1 distance)
    | _, _ => none

theorem transformResults_nil (ms : List (Option DiscourseMetadata)) (ds : List (Option ℚ)) :
    transformResults [] ms ds = [] := rfl

/-- One step of the transform loop on parallel arrays. -/
theorem transformResults_cons (i : String) (is : List String) (mo : Option DiscourseMetadata)
    (ms : List (Option DiscourseMetadata)) (dopt : Option ℚ) (ds : List (Option ℚ)) :
    transformResults (i :: is) (mo :: ms) (dopt :: ds) =
      match mo, dopt with
      | some metadata, some distance =>
          transformHit metadata i distance :: transformResults is ms ds
      | _, _ => transformResults is ms ds := by
  cases mo <;> cases dopt <;>
    simp [transformResults, List.range_succ_eq_map, List.filterMap_cons, List.filterMap_map,
      Function.comp_def, List.getD_cons_zero, List.getD_cons_succ]

theorem transformResults_eq_spec (ids : List String) :
    ∀ (ms : List (Option DiscourseMetadata)) (ds : List (Option ℚ)),
      ms.length = ids.length → ds.length = ids.length →
      transformResults ids ms ds = transformSpecZip ids ms ds := by
  induction ids with
  | nil => intro ms ds _ _; rfl
  | cons i is ih =>
    intro ms ds hm hd
    cases ms with
    | nil => simp at hm
    | cons mo ms' =>
      cases ds with
      | nil => simp at hd
      | cons dopt ds' =>
        have hm' : ms'.length = is.length := by simpa using hm
        have hd' : ds'.length = is.length := by simpa using hd
        rw [transformResults_cons]
        cases mo <;> cases dopt <;>
          simp [transformSpecZip, List.zip_cons_cons, List.filterMap_cons, ih ms' ds' hm' hd']

theorem length_filterMap_eq_countP {α β : Type} (f : α → Option β) (l : List α) :
    (l.filterMap f).length = l.countP fun a => (f a).isSome := by
  induction l with
  | nil => rfl
  | cons a t ih =>
    rw [List.filterMap_cons, List.countP_cons]
    cases h : f a <;> simp [h, ih]

/-- **C6.** On parallel raw-hit arrays the transform emits, in input order, one
`Community` per entry whose metadata and distance are both present (the
zip-and-keep formulation), and drops every other entry silently: the output
length is exactly the number of fully-present entries, so no placeholder is
ever emitted, and the function is total (never raises). -/
theorem transformResults_spec (ids : List String) (metadatas : List (Option DiscourseMetadata))
    (distances : List (Option ℚ)) (hm : metadatas.length = ids.length)
    (hd : distances.length = ids.length) :
    transformResults ids metadatas distances = transformSpecZip ids metadatas distances
    ∧ (transformResults ids metadatas distances).length =
        (ids.zip (metadatas.zip distances)).countP fun e => e.2.1.isSome && e.2.2.isSome := by
  refine ⟨transformResults_eq_spec ids metadatas distances hm hd, ?_⟩
  rw [transformResults_eq_spec ids metadatas distances hm hd, transformSpecZip,
    length_filterMap_eq_countP]
  refine List.countP_congr fun e _ => ?_
  rcases e with ⟨i, mo, dopt⟩
  cases mo <;> cases dopt <;> simp

/-- Metadata used by the C6 witness. -/
def witMeta : DiscourseMetadata :=
  ⟨some "w1", some "W", none, none, none, none, none, none, none, some .medium⟩

/-- Witness for C6: three parallel entries, one with null metadata and one with
null distance. -/
theorem transformResults_spec_witness :
    transformResults ["a", "b", "c"] [some witMeta, none, some witMeta]
        [some 0.5, some 0.4, none]
      = transformSpecZip ["a", "b", "c"] [some witMeta, none, some witMeta]
        [some 0.5, some 0.4, none]
    ∧ (transformResults ["a", "b", "c"] [some witMeta, none, some witMeta]
        [some 0.5, some 0.4, none]).length
      = (["a", "b", "c"].zip ([some witMeta, none, some witMeta].zip
          [some (0.5 : ℚ), some 0.4, none])).countP fun e => e.2.1.isSome && e.2.2.isSome :=
  transformResults_spec ["a", "b", "c"] [some witMeta, none, some witMeta]
    [some 0.5, some 0.4, none] (by simp) (by simp)

/-- Metadata whose `description` is absent but whose `excerpt` is present. -/
def metaExcerptOnly : DiscourseMetadata :=
  ⟨none, some "T", some "https://t.example", some "An excerpt", none, none, none, none, none,
    none⟩

/-- **C10, counterexample.** A kept hit whose metadata lacks `description` does
not receive the empty string: the transform falls back to `excerpt` first, so
the claimed default of `""` for an absent description is wrong. -/
theorem transform_defaults_counterexample :
    metaExcerptOnly.description = none
    ∧ (transformHit metaExcerptOnly "doc1" 0.5).description = "An excerpt"
    ∧ ("An excerpt" : String) ≠ "" := by
  refine ⟨rfl, ?_, by decide⟩
  simp [transformHit, strOr, metaExcerptOnly]

/-- **C10, amended.** Field construction of a kept hit: `id` is the metadata id
when present and non-empty and otherwise the store document id; `title`
defaults to `"Unknown"`, `url`/`categories`/`tags` to `""`, the user counts to
`0` and the engagement tier to `unknown` when absent; `description`, however,
falls back to the `excerpt` field first and only then to `""`.  Every field of
the constructed `Community` is a total value (never null/undefined). -/
theorem transformHit_fields (m : DiscourseMetadata) (docId : String) (d : ℚ) :
    ((m.id = none ∨ m.id = some "") → (transformHit m docId d).id = docId)
    ∧ (∀ s, m.id = some s → s ≠ "" → (transformHit m docId d).id = s)
    ∧ (m.title = none → (transformHit m docId d).title = "Unknown")
    ∧ (∀ s, m.title = some s → s ≠ "" → (transformHit m docId d).title = s)
    ∧ (m.url = none → (transformHit m docId d).url = "")
    ∧ (m.description = none → m.excerpt = none → (transformHit m docId d).description = "")
    ∧ (∀ s, m.description = none → m.excerpt = some s → s ≠ "" →
        (transformHit m docId d).description = s)
    ∧ (m.users_count = none → (transformHit m docId d).users_count = 0)
    ∧ (m.active_users_30_days = none → (transformHit m docId d).active_users_30_days = 0)
    ∧ (m.engagement_tier = none → (transformHit m docId d).engagement_tier = .unknown)
    ∧ (m.categories = none → (transformHit m docId d).categories = "")
    ∧ (m.tags = none → (transformHit m docId d).tags = "") := by
  refine ⟨fun h => ?_, fun s hs hne => ?_, fun h => ?_, fun s hs hne => ?_, fun h => ?_,
    fun h1 h2 => ?_, fun s h1 h2 hne => ?_, fun h => ?_, fun h => ?_, fun h => ?_,
    fun h => ?_, fun h => ?_⟩
  · rcases h with h | h <;> simp [transformHit, strOr, h]
  all_goals simp [transformHit, strOr, numOr, *]

/-- Witness for C10 (amended) at `metaExcerptOnly`. -/
theorem transformHit_fields_witness :
    (transformHit metaExcerptOnly "doc1" 0.5).id = "doc1"
    ∧ (transformHit metaExcerptOnly "doc1" 0.5).description = "An excerpt"
    ∧ (transformHit metaExcerptOnly "doc1" 0.5).users_count = 0 :=
  ⟨(transformHit_fields metaExcerptOnly "doc1" 0.5).1 (Or.inl rfl),
    (transformHit_fields metaExcerptOnly "doc1" 0.5).2.2.2.2.2.2.1 "An excerpt" rfl rfl
      (by decide),
    (transformHit_fields metaExcerptOnly "doc1" 0.5).2.2.2.2.2.2.2.1 rfl⟩

/-- Metadata of the rounding counterexample, low engagement tier. -/
def roundMetaA : DiscourseMetadata :=
  ⟨some "rndA", some "A", some "https://a.example", none, none, none, none, some 100, some 7,
    some .low⟩

/-- Metadata of the rounding counterexample, high engagement tier. -/
def roundMetaB : DiscourseMetadata :=
  ⟨some "rndB", some "B", some "https://b.example", none, none, none, none, some 100, some 7,
    some .high⟩

/-- The two hits as the transform constructs them (confidences rounded). -/
def roundedHits : List Community :=
  transformResults ["docA", "docB"] [some roundMetaA, some roundMetaB]
    [some 0.3976, some 0.8501]

/-- The same two communities carrying the unrounded scorer outputs instead. -/
def unroundedHitA : Community :=
  ⟨"rndA", "A", "https://a.example", "", 100, 7, .low, "", "", 0.9503, 0.3976, .adjacent⟩

def unroundedHitB : Community :=
  ⟨"rndB", "B", "https://b.example", "", 100, 7, .high, "", "", 0.8499, 0.8501, .peripheral⟩

/-- **C2, counterexample.** At distances 0.3976 and 0.8501 the unrounded
confidences are 0.9503 and 0.8499 — a gap of 0.1004, decisive for the rerank
threshold — but the transform stores the rounded values 0.95 and 0.85, whose
gap of exactly 0.1 is inside the tie band, so `rerank` lets the engagement tier
override confidence; on the unrounded values it would keep the high-confidence
hit first.  Rounding is therefore applied before the rerank comparison, not
only for display. -/
theorem rounding_before_rerank_counterexample :
    calculateConfidenceFromDistance 0.3976 = 0.9503
    ∧ calculateConfidenceFromDistance 0.8501 = 0.8499
    ∧ 0.1 < mathAbs (0.8499 - 0.9503)
    ∧ roundedHits.map Community.confidence = [0.95, 0.85]
    ∧ (0.95 : ℚ) ≠ 0.9503
    ∧ ¬ 0.1 < mathAbs (0.85 - 0.95)
    ∧ (rerank roundedHits).map Community.id = ["rndB", "rndA"]
    ∧ (rerank [unroundedHitA, unroundedHitB]).map Community.id = ["rndA", "rndB"] := by
  have hA : transformHit roundMetaA "docA" 0.3976 =
      ⟨"rndA", "A", "https://a.example", "", 100, 7, .low, "", "", 0.95, 0.3976, .adjacent⟩ := by
    simp only [transformHit, roundMetaA, strOr, numOr, Community.mk.injEq]
    norm_num [round3, round4, calculateConfidenceFromDistance, classifyMatchTier]
    simp
  have hB : transformHit roundMetaB "docB" 0.8501 =
      ⟨"rndB", "B", "https://b.example", "", 100, 7, .high, "", "", 0.85, 0.8501,
        .peripheral⟩ := by
    simp only [transformHit, roundMetaB, strOr, numOr, Community.mk.injEq]
    norm_num [round3, round4, calculateConfidenceFromDistance, classifyMatchTier]
    simp
  have hlist : roundedHits =
      [⟨"rndA", "A", "https://a.example", "", 100, 7, .low, "", "", 0.95, 0.3976, .adjacent⟩,
        ⟨"rndB", "B", "https://b.example", "", 100, 7, .high, "", "", 0.85, 0.8501,
          .peripheral⟩] := by
    rw [roundedHits, transformResults_cons]
    simp only [transformResults_cons, transformResults_nil, hA, hB]
  refine ⟨by norm_num [calculateConfidenceFromDistance], ?_, ?_, ?_, by norm_num, ?_, ?_, ?_⟩
  · norm_num [calculateConfidenceFromDistance]
  · norm_num [mathAbs]
  · rw [hlist]; rfl
  · norm_num [mathAbs]
  · rw [hlist]
    simp only [rerank, List.insertionSort, List.orderedInsert, rerankCompare, mathAbs, tierOrder]
    norm_num
  · simp only [rerank, List.insertionSort, List.orderedInsert, rerankCompare, mathAbs, tierOrder,
      unroundedHitA, unroundedHitB]
    norm_num

/-- **C2, amended.** Rounding to 3 decimals happens at transform time: the
`Community` stores `round3` of the scorer output, and the rerank comparator —
including its 0.1 tie-band threshold — reads that stored (rounded) confidence
field; the unrounded value is not retained for the comparison. -/
theorem transform_rounds_confidence_before_rerank (m : DiscourseMetadata) (docId : String)
    (d : ℚ) (a b : Community) :
    (transformHit m docId d).confidence = round3 (calculateConfidenceFromDistance d)
    ∧ (mathAbs (b.confidence - a.confidence) ≤ 0.1 →
        tierOrder b.engagement_tier = tierOrder a.engagement_tier →
        rerankCompare a b = b.active_users_30_days - a.active_users_30_days)
    ∧ (0.1 < mathAbs (b.confidence - a.confidence) →
        rerankCompare a b = b.confidence - a.confidence) := by
  refine ⟨rfl, fun h1 h2 => ?_, fun h => ?_⟩
  · unfold rerankCompare
    rw [if_neg (not_lt.mpr h1), if_neg (not_ne_iff.mpr (sub_eq_zero_of_eq h2))]
  · unfold rerankCompare
    rw [if_pos h]

/-- Witness for C2 (amended). -/
theorem transform_rounds_confidence_before_rerank_witness :
    (transformHit roundMetaA "docA" 0.3976).confidence =
      round3 (calculateConfidenceFromDistance 0.3976)
    ∧ rerankCompare unroundedHitA unroundedHitA =
        unroundedHitA.active_users_30_days - unroundedHitA.active_users_30_days :=
  ⟨(transform_rounds_confidence_before_rerank roundMetaA "docA" 0.3976 unroundedHitA
      unroundedHitA).1,
    (transform_rounds_confidence_before_rerank roundMetaA "docA" 0.3976 unroundedHitA
      unroundedHitA).2.1 (by norm_num [mathAbs]) rfl⟩

/-- `round3` is monotone, so it commutes with taking the least / greatest
element of a list. -/
theorem round3_mono {x y : ℚ} (h : x ≤ y) : round3 x ≤ round3 y := by
  unfold round3
  have h1 : (⌊x * 1000 + 1 / 2⌋ : ℤ) ≤ ⌊y * 1000 + 1 / 2⌋ := Int.floor_le_floor (by linarith)
  have h2 : ((⌊x * 1000 + 1 / 2⌋ : ℤ) : ℚ) ≤ ((⌊y * 1000 + 1 / 2⌋ : ℤ) : ℚ) := by
    exact_mod_cast h1
  linarith

/-- The head of a `(· ≤ ·)`-sorted rational list bounds every member below. -/
theorem sorted_getD_zero_le {l : List ℚ} (hs : l.Sorted (· ≤ ·)) {x : ℚ} (hx : x ∈ l) :
    l.getD 0 0 ≤ x := by
  cases l with
  | nil => simp at hx
  | cons a t =>
    rw [List.getD_cons_zero]
    rcases List.mem_cons.mp hx with rfl | hxt
    · exact le_rfl
    · exact (List.sorted_cons.mp hs).1 x hxt

theorem getD_zero_mem {l : List ℚ} (h : l ≠ []) : l.getD 0 0 ∈ l := by
  cases l with
  | nil => exact absurd rfl h
  | cons a t => simp

theorem getD_last_mem {l : List ℚ} (h : l ≠ []) : l.getD (l.length - 1) 0 ∈ l := by
  induction l with
  | nil => exact absurd rfl h
  | cons a t ih =>
    cases t with
    | nil => simp
    | cons b t' =>
      have hlen : (a :: b :: t').length - 1 = (b :: t').length - 1 + 1 := by simp
      rw [hlen, List.getD_cons_succ]
      exact List.mem_cons_of_mem a (ih (by simp))

/-- The last entry of a `(· ≤ ·)`-sorted rational list bounds every member above. -/
theorem le_sorted_getD_last {l : List ℚ} (hs : l.Sorted (· ≤ ·)) {x : ℚ} (hx : x ∈ l) :
    x ≤ l.getD (l.length - 1) 0 := by
  induction l with
  | nil => simp at hx
  | cons a t ih =>
    rcases List.sorted_cons.mp hs with ⟨ha, ht⟩
    cases t with
    | nil =>
      simp only [List.mem_singleton] at hx
      simp [hx]
    | cons b t' =>
      have hlen : (a :: b :: t').length - 1 = (b :: t').length - 1 + 1 := by simp
      rw [hlen, List.getD_cons_succ]
      rcases List.mem_cons.mp hx with rfl | hxt
      · exact ha _ (getD_last_mem (by simp))
      · exact ih ht hxt

/-- Closed form of `calculateConfidenceStats` on a non-empty input. -/
theorem calculateConfidenceStats_closed (cs : List Community) (h : cs.length ≠ 0) :
    calculateConfidenceStats cs =
      ⟨round3 (((cs.map fun c => c.confidence).insertionSort (· ≤ ·)).foldl (· + ·) 0 /
          (cs.length : ℚ)),
        round3 (if cs.length % 2 = 0 then
            (((cs.map fun c => c.confidence).insertionSort (· ≤ ·)).getD (cs.length / 2 - 1) 0 +
              ((cs.map fun c => c.confidence).insertionSort (· ≤ ·)).getD (cs.length / 2) 0) / 2
          else ((cs.map fun c => c.confidence).insertionSort (· ≤ ·)).getD (cs.length / 2) 0),
        round3 (((cs.map fun c => c.confidence).insertionSort (· ≤ ·)).getD 0 0),
        round3 (((cs.map fun c => c.confidence).insertionSort (· ≤ ·)).getD
          (cs.length - 1) 0)⟩ := by
  rw [calculateConfidenceStats, if_neg h]
  simp only [List.length_insertionSort, List.length_map]

/-- Community with only its confidence relevant, used for the C9 example. -/
def statsDemo (i : String) (conf : ℚ) : Community :=
  ⟨i, "T", "", "", 0, 0, .low, "", "", conf, 0.5, .adjacent⟩

/-- The spec's even-count example: confidences [0.9, 0.8, 0.6, 0.5]. -/
def statsDemoList : List Community :=
  [statsDemo "s1" 0.9, statsDemo "s2" 0.8, statsDemo "s3" 0.6, statsDemo "s4" 0.5]

/-- **C9.** `calculateConfidenceStats` returns the mean, median, min and max of
the confidences, each rounded to 3 decimals: against any sorted permutation
`sorted` of the confidences, the median is the middle element (odd count) or
the average of the two middle elements (even count), the min/max are the first
and last sorted entries and bound every rounded confidence; the empty list
yields the all-zero record; and the spec's even-count example
[0.9, 0.8, 0.6, 0.5] gives mean 0.7, median 0.7, min 0.5, max 0.9. -/
theorem calculateConfidenceStats_spec (cs : List Community) (sorted : List ℚ)
    (hperm : sorted.Perm (cs.map Community.confidence)) (hsort : sorted.Sorted (· ≤ ·))
    (hne : cs ≠ []) :
    calculateConfidenceStats [] = ⟨0, 0, 0, 0⟩
    ∧ (calculateConfidenceStats cs).mean
        = round3 ((cs.map Community.confidence).sum / (cs.length : ℚ))
    ∧ (calculateConfidenceStats cs).median
        = round3 (if cs.length % 2 = 0 then
            (sorted.getD (cs.length / 2 - 1) 0 + sorted.getD (cs.length / 2) 0) / 2
          else sorted.getD (cs.length / 2) 0)
    ∧ (calculateConfidenceStats cs).min = round3 (sorted.getD 0 0)
    ∧ (∀ c ∈ cs, (calculateConfidenceStats cs).min ≤ round3 c.confidence)
    ∧ (calculateConfidenceStats cs).min ∈ cs.map (fun c => round3 c.confidence)
    ∧ (calculateConfidenceStats cs).max = round3 (sorted.getD (cs.length - 1) 0)
    ∧ (∀ c ∈ cs, round3 c.confidence ≤ (calculateConfidenceStats cs).max)
    ∧ (calculateConfidenceStats cs).max ∈ cs.map (fun c => round3 c.confidence)
    ∧ calculateConfidenceStats statsDemoList = ⟨0.7, 0.7, 0.5, 0.9⟩ := by
  have hlen0 : cs.length ≠ 0 := fun h => hne (List.length_eq_zero.mp h)
  have hkey : sorted = (cs.map fun c => c.confidence).insertionSort (· ≤ ·) := by
    refine List.eq_of_perm_of_sorted ?_ hsort (List.sorted_insertionSort _ _)
    exact hperm.trans (List.perm_insertionSort _ _).symm
  have hstats := calculateConfidenceStats_closed cs hlen0
  have hsortlen : sorted.length = cs.length := by
    rw [hkey, List.length_insertionSort, List.length_map]
  have hsortne : sorted ≠ [] := by
    intro h
    rw [h] at hsortlen
    exact hlen0 hsortlen.symm
  have hmemconf : ∀ c ∈ cs, c.confidence ∈ sorted := by
    intro c hc
    rw [hperm.mem_iff]
    exact List.mem_map_of_mem Community.confidence hc
  refine ⟨rfl, ?_, ?_, ?_, ?_, ?_, ?_, ?_, ?_, ?_⟩
  · rw [hstats]
    have : ((cs.map fun c => c.confidence).insertionSort (· ≤ ·)).foldl (· + ·) 0
        = (cs.map Community.confidence).sum := by
      rw [← List.sum_eq_foldl]
      exact (List.perm_insertionSort _ _).sum_eq
    rw [this]
  · rw [hstats, hkey]
  · rw [hstats, hkey]
  · intro c hc
    rw [hstats, ← hkey]
    exact round3_mono (sorted_getD_zero_le hsort (hmemconf c hc))
  · rw [hstats, ← hkey]
    have hmem : sorted.getD 0 0 ∈ cs.map Community.confidence :=
      hperm.mem_iff.mp (getD_zero_mem hsortne)
    rcases List.mem_map.mp hmem with ⟨c, hc, hcval⟩
    exact List.mem_map.mpr ⟨c, hc, by rw [hcval]⟩
  · rw [hstats, hkey]
  · intro c hc
    rw [hstats, ← hsortlen, ← hkey]
    exact round3_mono (le_sorted_getD_last hsort (hmemconf c hc))
  · rw [hstats, ← hsortlen, ← hkey]
    have hmem : sorted.getD (sorted.length - 1) 0 ∈ cs.map Community.confidence :=
      hperm.mem_iff.mp (getD_last_mem hsortne)
    rcases List.mem_map.mp hmem with ⟨c, hc, hcval⟩
    exact List.mem_map.mpr ⟨c, hc, by rw [hcval]⟩
  · norm_num [calculateConfidenceStats, statsDemoList, statsDemo, List.insertionSort,
      List.orderedInsert, round3]

/-- Witness for C9 at the spec's even-count example. -/
theorem calculateConfidenceStats_spec_witness :
    calculateConfidenceStats [] = ⟨0, 0, 0, 0⟩
    ∧ (calculateConfidenceStats statsDemoList).median
        = round3 (if statsDemoList.length % 2 = 0 then
            (([0.5, 0.6, 0.8, 0.9] : List ℚ).getD (statsDemoList.length / 2 - 1) 0 +
              ([0.5, 0.6, 0.8, 0.9] : List ℚ).getD (statsDemoList.length / 2) 0) / 2
          else ([0.5, 0.6, 0.8, 0.9] : List ℚ).getD (statsDemoList.length / 2) 0)
    ∧ calculateConfidenceStats statsDemoList = ⟨0.7, 0.7, 0.5, 0.9⟩ := by
  have h := calculateConfidenceStats_spec statsDemoList [0.5, 0.6, 0.8, 0.9]
    (by rw [show statsDemoList.map Community.confidence = [0.9, 0.8, 0.6, 0.5] from rfl]
        exact List.reverse_perm [0.9, 0.8, 0.6, 0.5])
    (by norm_num [List.sorted_cons]) (by simp [statsDemoList])
  exact ⟨h.1, h.2.2.1, h.2.2.2.2.2.2.2.2.2⟩

/-- Raw `get` response shape (`ChromaGetResponse` in `chroma/client.ts`):
parallel arrays plus an optional embeddings array whose entries may be absent. -/
structure ChromaGetResponse where
  ids : List String
  metadatas : List (Option DiscourseMetadata)
  embeddings : Option (List (Option (List ℚ)))

/-- Raw batched `query` response shape (`ChromaQueryResponse` in
`chroma/types.ts`); this subsystem always reads batch index 0. -/
structure ChromaQueryResponse where
  ids : List (List String)
  metadatas : List (List (Option DiscourseMetadata))
  distances : List (List (Option ℚ))

/-- One outbound call to the vector-store proxy (`chroma/client.ts` boundary). -/
inductive StoreCall where
  | getByIds (ids : List String)
  | getByMetadataUrl (url : String)
  | queryByText (text : String) (nResults : Nat)
  | queryByEmbedding (embedding : List ℚ) (nResults : Nat)

/-- The external vector store as a deterministic oracle, one function per proxy
endpoint consumed by this subsystem. -/
structure VectorStore where
  getByIds : List String → ChromaGetResponse
  getByMetadataUrl : String → ChromaGetResponse
  queryByText : String → Nat → ChromaQueryResponse
  queryByEmbedding : List ℚ → Nat → ChromaQueryResponse

/-- `result.ids?.[0]` under JavaScript truthiness: an absent first id and the
empty string are both falsy. -/
def firstTruthyId (r : ChromaGetResponse) : Option String :=
  match r.ids.head? with
  | some i => if i = "" then none else some i
  | none => none

/-- `result.embeddings?.[0]`: absent array or absent first entry is falsy (an
empty embedding array is still truthy). -/
def firstEmbedding (r : ChromaGetResponse) : Option (List ℚ) :=
  match r.embeddings with
  | some es => es.head?.join
  | none => none

/-- `input.startsWith("discover_")`, carried out on the character lists. -/
def isIdShaped (input : String) : Bool := "discover_".data.isPrefixOf input.data

/-- `input.replace(/\/$/, "")`: strip one trailing slash if present. -/
def stripTrailingSlash (url : String) : String :=
  if url.data.getLast? = some '/' then url.data.dropLast.asString else url

/-- The three failure modes of the resolver. -/
inductive ResolveError where
  | notFoundId (input : String)
  | notFoundUrl (input : String)
  | embeddingUnavailable (input : String)

/-- The exact thrown message texts of `resolveToDocument`. -/
def ResolveError.message : ResolveError → String
  | notFoundId input => "Community not found with ID: " ++ input
  | notFoundUrl input => "Community not found with URL: " ++ input
  | embeddingUnavailable input => "Could not retrieve embedding for community: " ++ input

/-- The resolver's successful result (`{ id, metadata, embedding }`). -/
structure ResolvedDocument where
  id : String
  metadata : Option DiscourseMetadata
  embedding : List ℚ

/-- Common tail of `resolveToDocument` (lines 477-486): the embedding presence
check and result construction on the response that supplied the first id. -/
def finishResolve (input : String) (docId : String) (r : ChromaGetResponse) :
    Except ResolveError ResolvedDocument :=
  match firstEmbedding r with
  | none => .error (.embeddingUnavailable input)
  | some embedding => .ok ⟨docId, r.metadatas.head?.join, embedding⟩

/-- `resolveToDocument` (`search_discourse_communities.ts` lines 448-487),
instrumented with the ordered log of store calls it makes. -/
def resolveToDocument (store : VectorStore) (input : String) :
    List StoreCall × Except ResolveError ResolvedDocument :=
  if isIdShaped input then
    let result := store.getByIds [input]
    ([StoreCall.getByIds [input]],
      match firstTruthyId result with
      | none => .error (.notFoundId input)
      | some docId => finishResolve input docId result)
  else
    let normalizedUrl := stripTrailingSlash input
    let result := store.getByMetadataUrl normalizedUrl
    match firstTruthyId result with
    | some docId =>
        ([StoreCall.getByMetadataUrl normalizedUrl], finishResolve input docId result)
    | none =>
        let retry := store.getByMetadataUrl (normalizedUrl ++ "/")
        ([StoreCall.getByMetadataUrl normalizedUrl,
            StoreCall.getByMetadataUrl (normalizedUrl ++ "/")],
          match firstTruthyId retry with
          | none => .error (.notFoundUrl input)
          | some docId => finishResolve input docId retry)

/-- JavaScript truthiness of an optional string argument. -/
def jsTruthy : Option String → Bool
  | none => false
  | some s => if s = "" then false else true

/-- The validation error text of the orchestrator (line 580). -/
def validationMessage : String :=
  "Validation error: Provide exactly one of 'query' or 'similar_to'"

/-- Outcome envelope of the tool handler: the validation short-circuit, the
caught-error envelope (`Error: ...`, line 658), or a successful community
list. -/
inductive SearchOutcome where
  | validationFailure (message : String)
  | errorEnvelope (message : String)
  | success (communities : List Community)

/-- The handler of `registerSearchDiscourseCommunities` (lines 570-663),
restricted to the search pipeline: validation, then text mode
(`rerank ∘ transform` of a `limit`-sized query) or similarity mode (resolve,
query `limit + 1` neighbours seeded by the resolved embedding, transform,
remove the self-match by id, rerank, truncate to `limit`).  The final
response-envelope assembly consumes the returned list unchanged.  The first
component logs the outbound store calls in order. -/
def searchOrchestrate (store : VectorStore) (query similar_to : Option String) (limit : Nat) :
    List StoreCall × SearchOutcome :=
  if (jsTruthy query && jsTruthy similar_to) || (!jsTruthy query && !jsTruthy similar_to) then
    ([], .validationFailure validationMessage)
  else if jsTruthy query then
    let q := query.getD ""
    let results := store.queryByText q limit
    ([StoreCall.queryByText q limit],
      .success (rerank (transformResults (results.ids.headD []) (results.metadatas.headD [])
        (results.distances.headD []))))
  else if jsTruthy similar_to then
    let s := similar_to.getD ""
    match resolveToDocument store s with
    | (calls, .error e) => (calls, .errorEnvelope ("Error: " ++ e.message))
    | (calls, .ok doc) =>
        let results := store.queryByEmbedding doc.embedding (limit + 1)
        (calls ++ [StoreCall.queryByEmbedding doc.embedding (limit + 1)],
          .success ((rerank ((transformResults (results.ids.headD [])
            (results.metadatas.headD []) (results.distances.headD [])).filter
              (fun c => c.id != doc.id))).take limit))
  else ([], .errorEnvelope "Error: Provide exactly one of 'query' or 'similar_to'")

/-- **C5.** The resolver: an ID-shaped input (literal prefix `discover_`)
queries by ID only, failing with the ID-flavoured NotFound when the lookup is
empty; a non-ID input first queries by the URL with one trailing slash
stripped, retries exactly once with a trailing slash appended when the first
attempt is empty, and fails with NotFound carrying the original input when
both attempts are empty; `stripTrailingSlash` removes exactly one trailing
slash; a record that resolves but lacks an embedding fails with the distinct
embedding-unavailable error, which is never equal to either NotFound error. -/
theorem resolveToDocument_spec (store : VectorStore) (input : String) :
    (isIdShaped input = true →
      (resolveToDocument store input).1 = [StoreCall.getByIds [input]]
      ∧ (firstTruthyId (store.getByIds [input]) = none →
          (resolveToDocument store input).2 = .error (.notFoundId input))
      ∧ (∀ docId, firstTruthyId (store.getByIds [input]) = some docId →
          firstEmbedding (store.getByIds [input]) = none →
          (resolveToDocument store input).2 = .error (.embeddingUnavailable input)))
    ∧ (isIdShaped input = false →
      (∀ docId, firstTruthyId (store.getByMetadataUrl (stripTrailingSlash input)) = some docId →
        (resolveToDocument store input).1
          = [StoreCall.getByMetadataUrl (stripTrailingSlash input)]
        ∧ (firstEmbedding (store.getByMetadataUrl (stripTrailingSlash input)) = none →
            (resolveToDocument store input).2 = .error (.embeddingUnavailable input)))
      ∧ (firstTruthyId (store.getByMetadataUrl (stripTrailingSlash input)) = none →
        (resolveToDocument store input).1
          = [StoreCall.getByMetadataUrl (stripTrailingSlash input),
             StoreCall.getByMetadataUrl (stripTrailingSlash input ++ "/")]
        ∧ (firstTruthyId (store.getByMetadataUrl (stripTrailingSlash input ++ "/")) = none →
            (resolveToDocument store input).2 = .error (.notFoundUrl input))))
    ∧ (∀ t : String, stripTrailingSlash (t ++ "/") = t)
    ∧ (∀ i j : String, ResolveError.embeddingUnavailable i ≠ .notFoundId j
        ∧ ResolveError.embeddingUnavailable i ≠ .notFoundUrl j) := by
  refine ⟨fun hid => ⟨?_, fun hnone => ?_, fun docId hsome hemb => ?_⟩,
    fun hnid => ⟨fun docId hsome => ⟨?_, fun hemb => ?_⟩, fun hnone => ⟨?_, fun hnone2 => ?_⟩⟩,
    fun t => ?_, fun i j => ⟨by simp, by simp⟩⟩
  · simp [resolveToDocument, hid]
  · simp [resolveToDocument, hid, hnone]
  · simp [resolveToDocument, hid, hsome, finishResolve, hemb]
  · simp [resolveToDocument, hnid, hsome]
  · simp [resolveToDocument, hnid, hsome, finishResolve, hemb]
  · simp [resolveToDocument, hnid, hnone]
  · simp [resolveToDocument, hnid, hnone, hnone2]
  · have hdata : (t ++ "/").data = t.data ++ ['/'] := by
      simp [String.data_append]
    simp only [stripTrailingSlash, hdata, List.getLast?_concat, List.dropLast_concat,
      if_pos]
    rfl

/-- Metadata of the record used by the resolver witness. -/
def resolveDemoMeta : DiscourseMetadata :=
  ⟨some "discover_7", some "Seven", some "https://w.example", none, none, none, none, some 10,
    some 2, some .medium⟩

/-- Concrete store for the resolver witness: one record reachable by ID
`discover_7`, carrying no embedding. -/
def resolveDemoStore : VectorStore :=
  ⟨fun ids => if ids = ["discover_7"] then ⟨["discover_7"], [some resolveDemoMeta], none⟩
      else ⟨[], [], none⟩,
    fun _ => ⟨[], [], none⟩,
    fun _ _ => ⟨[], [], []⟩,
    fun _ _ => ⟨[], [], []⟩⟩

/-- Witness for C5: the ID-shaped input queries by ID only and, the record
lacking an embedding, fails with the distinct embedding-unavailable error;
stripping acts on a single trailing slash. -/
theorem resolveToDocument_spec_witness :
    (resolveToDocument resolveDemoStore "discover_7").1
      = [StoreCall.getByIds ["discover_7"]]
    ∧ (resolveToDocument resolveDemoStore "discover_7").2
        = .error (.embeddingUnavailable "discover_7")
    ∧ stripTrailingSlash ("https://w.example" ++ "/") = "https://w.example"
    ∧ ResolveError.embeddingUnavailable "discover_7" ≠ .notFoundId "discover_7" :=
  ⟨((resolveToDocument_spec resolveDemoStore "discover_7").1 (by decide)).1,
    ((resolveToDocument_spec resolveDemoStore "discover_7").1 (by decide)).2.2 "discover_7"
      (by decide) rfl,
    (resolveToDocument_spec resolveDemoStore "discover_7").2.2.1 "https://w.example",
    ((resolveToDocument_spec resolveDemoStore "discover_7").2.2.2 "discover_7" "discover_7").1⟩

/-- The all-empty store used by the validation counterexample. -/
def trivialStore : VectorStore :=
  ⟨fun _ => ⟨[], [], none⟩, fun _ => ⟨[], [], none⟩, fun _ _ => ⟨[], [], []⟩,
    fun _ _ => ⟨[], [], []⟩⟩

/-- **C7, counterexample.** A request supplying both fields, with `similar_to`
the empty string (which the schema accepts, as only `query` carries a minimum
length), is routed to text mode with a store call and no validation error;
conversely a request supplying only `similar_to = ""` is rejected as if
neither field were supplied.  Presence alone therefore does not determine the
validation outcome — JavaScript truthiness does. -/
theorem validation_exactly_one_counterexample :
    searchOrchestrate trivialStore (some "x") (some "") 10
      = ([StoreCall.queryByText "x" 10], .success [])
    ∧ searchOrchestrate trivialStore none (some "") 10
      = ([], .validationFailure validationMessage) := by
  constructor
  · simp [searchOrchestrate, jsTruthy, trivialStore, rerank, transformResults]
  · simp [searchOrchestrate, jsTruthy]

/-- **C7, amended.** With presence measured by JavaScript truthiness (an empty
string counts as absent — in schema-valid requests this matters only for
`similar_to`, since the schema rejects an empty `query`): when both or neither
field is truthy the handler returns the validation failure whose message
contains "exactly one of", making no store call — the outcome is independent
of the store; when exactly one field is truthy the outcome is never the
validation failure. -/
theorem validation_exactly_one_spec (store store2 : VectorStore)
    (query similar_to : Option String) (limit : Nat) :
    (((jsTruthy query && jsTruthy similar_to)
        || (!jsTruthy query && !jsTruthy similar_to)) = true →
      searchOrchestrate store query similar_to limit
          = ([], .validationFailure validationMessage)
      ∧ searchOrchestrate store query similar_to limit
          = searchOrchestrate store2 query similar_to limit
      ∧ validationMessage
          = "Validation error: Provide " ++ "exactly one of" ++ " 'query' or 'similar_to'")
    ∧ (((jsTruthy query && jsTruthy similar_to)
        || (!jsTruthy query && !jsTruthy similar_to)) = false →
      ∀ msg, (searchOrchestrate store query similar_to limit).2
        ≠ .validationFailure msg) := by
  constructor
  · intro h
    refine ⟨by simp [searchOrchestrate, h], by simp [searchOrchestrate, h], by decide⟩
  · intro h msg
    cases hq : jsTruthy query
    · cases hs : jsTruthy similar_to
      · rw [hq, hs] at h
        simp at h
      · rcases hres : resolveToDocument store (similar_to.getD "") with ⟨calls, res⟩
        cases res <;> simp [searchOrchestrate, hq, hs, hres]
    · cases hs : jsTruthy similar_to
      · simp [searchOrchestrate, hq, hs]
      · rw [hq, hs] at h
        simp at h

/-- Witness for C7 (amended): both branches exercised at concrete arguments. -/
theorem validation_exactly_one_spec_witness :
    searchOrchestrate trivialStore none none 10 = ([], .validationFailure validationMessage)
    ∧ (searchOrchestrate trivialStore (some "x") none 10).2
        ≠ .validationFailure validationMessage :=
  ⟨((validation_exactly_one_spec trivialStore trivialStore none none 10).1 (by decide)).1,
    (validation_exactly_one_spec trivialStore trivialStore (some "x") none 10).2 (by decide)
      validationMessage⟩

/-- **C4.** In similarity mode (no query, non-empty `similar_to`), whenever the
resolver succeeds the orchestrator issues the nearest-neighbour query with
`limit + 1` requested results (after the resolver's own calls), and the
returned list — transform, self-match removal by resolved id, rerank,
truncate — contains no community whose id equals the resolved source id and
never exceeds `limit` entries. -/
theorem similarity_mode_spec (store : VectorStore) (s : String) (limit : Nat)
    (calls : List StoreCall) (doc : ResolvedDocument)
    (hres : resolveToDocument store s = (calls, .ok doc)) (hs : s ≠ "") :
    (searchOrchestrate store none (some s) limit).1
      = calls ++ [StoreCall.queryByEmbedding doc.embedding (limit + 1)]
    ∧ ∃ cs : List Community,
        (searchOrchestrate store none (some s) limit).2 = .success cs
        ∧ cs.length ≤ limit
        ∧ ∀ c ∈ cs, c.id ≠ doc.id := by
  have hst : jsTruthy (some s) = true := by simp [jsTruthy, hs]
  have hout : searchOrchestrate store none (some s) limit
      = (calls ++ [StoreCall.queryByEmbedding doc.embedding (limit + 1)],
        .success ((rerank (((transformResults
          ((store.queryByEmbedding doc.embedding (limit + 1)).ids.headD [])
          ((store.queryByEmbedding doc.embedding (limit + 1)).metadatas.headD [])
          ((store.queryByEmbedding doc.embedding (limit + 1)).distances.headD []))).filter
            (fun c => c.id != doc.id))).take limit)) := by
    simp [searchOrchestrate, hst, jsTruthy, hres, hs]
  refine ⟨by rw [hout], ⟨_, by rw [hout], ?_, ?_⟩⟩
  · rw [List.length_take]
    exact min_le_left _ _
  · intro c hc
    have hc1 := List.mem_of_mem_take hc
    have hc2 := List.mem_insertionSort _ |>.mp hc1
    have hc3 := (List.mem_filter.mp hc2).2
    simpa using hc3

/-- Metadata of the resolved source record for the C4 witness. -/
def simSourceMeta : DiscourseMetadata :=
  ⟨some "discover_9", some "Nine", some "https://nine.example", none, none, none, none,
    some 10, some 3, some .high⟩

/-- Metadata of the neighbour record for the C4 witness. -/
def simOtherMeta : DiscourseMetadata :=
  ⟨some "discover_5", some "Five", some "https://five.example", none, none, none, none,
    some 10, some 3, some .low⟩

/-- Concrete store for the C4 witness: the source record is resolvable by ID
with embedding `[1, 0]`, and every nearest-neighbour query returns the source
itself (distance 0) followed by one neighbour. -/
def simDemoStore : VectorStore :=
  ⟨fun ids => if ids = ["discover_9"] then
      ⟨["discover_9"], [some simSourceMeta], some [some [1, 0]]⟩
    else ⟨[], [], none⟩,
    fun _ => ⟨[], [], none⟩,
    fun _ _ => ⟨[], [], []⟩,
    fun _ _ => ⟨[["discover_9", "discover_5"]], [[some simSourceMeta, some simOtherMeta]],
      [[some 0.0, some 0.3]]⟩⟩

/-- Witness for C4 at `limit = 1` on the concrete store. -/
theorem similarity_mode_spec_witness :
    (searchOrchestrate simDemoStore none (some "discover_9") 1).1
      = [StoreCall.getByIds ["discover_9"], StoreCall.queryByEmbedding [1, 0] 2] := by
  have h := (similarity_mode_spec simDemoStore "discover_9" 1
    [StoreCall.getByIds ["discover_9"]] ⟨"discover_9", some simSourceMeta, [1, 0]⟩
    (by rfl) (by decide)).1
  simpa using h
